import Mathlib

/-!
Verification of the UKP kickball roster application (src/app.py).

The application is a Streamlit form over a SQLite database.  This file gives
a shallow embedding of its relational state and of the handlers that the
claims concern: the lineup grid (table lineup_positions), the availability
ledger (table game_player_status), the two roster pools (tables main_roster
and substitutes), the game registry (table games) and the validation
queries.  SQL tables are modelled as Lean lists of rows in rowid order;
SELECT ... fetchone is List.find?, DELETE is List.filter with the negated
WHERE clause, INSERT appends at the end, and INSERT OR REPLACE deletes the
conflicting key first and then appends.
-/

namespace UKP

/-- Row of table lineup_positions: (game_id, inning, position, player_name).
The table deliberately has no uniqueness constraint (see the schema comment
in init_db), so it is a plain list of rows. -/
structure LineupRow where
  game_id : Nat
  inning : Nat
  position : String
  player_name : String
deriving DecidableEq, Repr

abbrev Lineup := List LineupRow

/-- WHERE clause game_id = g AND inning = i AND player_name = p. -/
def lineupKey (g i : Nat) (p : String) (r : LineupRow) : Bool :=
  r.game_id == g && r.inning == i && r.player_name == p

/-- All rows of the lineup table for one (game, inning, player). -/
def rowsForPlayer (lu : Lineup) (g i : Nat) (p : String) : Lineup :=
  lu.filter (lineupKey g i p)

/-- SELECT position FROM lineup_positions WHERE game_id AND inning AND
player_name, fetchone: the position of the first matching row, with the
empty string standing for the Python None of a missing row (app.py line
1064-1068). -/
def findPos (lu : Lineup) (g i : Nat) (p : String) : String :=
  match lu.find? (lineupKey g i p) with
  | some r => r.position
  | none => ""

/-- The lineup selectbox update (app.py lines 1109-1137): when the selected
position differs from the current one, delete the row
(game, inning, current_position, player) if a current position exists, then,
for a non-empty selection, insert (game, inning, position, player) unless
that exact row is already present. -/
def setCell (lu : Lineup) (g i : Nat) (p pos : String) : Lineup :=
  let current := findPos lu g i p
  if pos = current then lu
  else
    let lu1 := if current = "" then lu
      else lu.filter (fun r =>
        !(r.game_id == g && r.inning == i && r.position == current && r.player_name == p))
    if pos = "" then lu1
    else if lu1.any (fun r =>
        r.game_id == g && r.inning == i && r.position == pos && r.player_name == p) then lu1
    else lu1 ++ [⟨g, i, pos, p⟩]

/-- Invariant of the lineup table maintained by the UI: each player has at
most one row per (game, inning). -/
def playerUnique (lu : Lineup) : Prop :=
  ∀ g i p, (rowsForPlayer lu g i p).length ≤ 1

/-- Invariant of the lineup table: no row stores a blank position (blank
selections delete the row instead of storing an empty string). -/
def noBlankPos (lu : Lineup) : Prop :=
  ∀ r ∈ lu, r.position ≠ ""

theorem length_le_one_mem {α : Type} {l : List α} {a : α}
    (h1 : l.length ≤ 1) (h2 : a ∈ l) : l = [a] := by
  match l, h2 with
  | [x], h2 => simp at h2; simp [h2]
  | x :: y :: t, _ => simp at h1

theorem findPos_empty {lu : Lineup} {g i : Nat} {p : String}
    (hb : noBlankPos lu) (h : findPos lu g i p = "") :
    rowsForPlayer lu g i p = [] := by
  unfold findPos at h
  cases hfind : lu.find? (lineupKey g i p) with
  | none =>
    exact List.filter_eq_nil_iff.mpr (List.find?_eq_none.mp hfind)
  | some r =>
    rw [hfind] at h
    exact absurd h (hb r (List.mem_of_find?_eq_some hfind))

theorem findPos_nonempty {lu : Lineup} {g i : Nat} {p : String} {c : String}
    (hu : playerUnique lu) (h : findPos lu g i p = c) (hc : c ≠ "") :
    rowsForPlayer lu g i p = [⟨g, i, c, p⟩] := by
  unfold findPos at h
  cases hfind : lu.find? (lineupKey g i p) with
  | none => rw [hfind] at h; exact absurd h.symm hc
  | some r =>
    rw [hfind] at h
    have hpred := List.find?_some hfind
    have hmem := List.mem_of_find?_eq_some hfind
    simp only [lineupKey, Bool.and_eq_true, beq_iff_eq] at hpred
    obtain ⟨⟨hg, hi⟩, hp⟩ := hpred
    have hr : r = ⟨g, i, c, p⟩ := by
      cases r; simp_all
    have hmemf : r ∈ rowsForPlayer lu g i p := by
      refine List.mem_filter.mpr ⟨hmem, ?_⟩
      simp [lineupKey, hg, hi, hp]
    rw [← hr]
    exact length_le_one_mem (hu g i p) hmemf

theorem rowsForPlayer_filter (lu : Lineup) (q : LineupRow → Bool) (g i : Nat) (p : String) :
    rowsForPlayer (lu.filter q) g i p = (rowsForPlayer lu g i p).filter q := by
  rw [rowsForPlayer, rowsForPlayer, List.filter_filter, List.filter_filter]
  exact List.filter_congr (fun a _ => by rw [Bool.and_comm])

theorem rowsForPlayer_append (l1 l2 : Lineup) (g i : Nat) (p : String) :
    rowsForPlayer (l1 ++ l2) g i p = rowsForPlayer l1 g i p ++ rowsForPlayer l2 g i p := by
  simp [rowsForPlayer, List.filter_append]

theorem setCell_self_pos (lu : Lineup) (g i : Nat) (p : String) {pos : String}
    (hu : playerUnique lu) (hb : noBlankPos lu) (hpos : pos ≠ "") :
    rowsForPlayer (setCell lu g i p pos) g i p = [⟨g, i, pos, p⟩] := by
  simp only [setCell]
  by_cases hc : pos = findPos lu g i p
  · rw [if_pos hc]
    exact findPos_nonempty hu hc.symm hpos
  · rw [if_neg hc]
    by_cases hcur : findPos lu g i p = ""
    · rw [if_pos hcur, if_neg hpos]
      have hnil := findPos_empty hb hcur
      have hany : lu.any (fun r =>
          r.game_id == g && r.inning == i && r.position == pos && r.player_name == p) = false := by
        rw [List.any_eq_false]
        intro r hr hpred
        simp only [Bool.and_eq_true, beq_iff_eq] at hpred
        have hmemf : r ∈ rowsForPlayer lu g i p := by
          refine List.mem_filter.mpr ⟨hr, ?_⟩
          simp [lineupKey, hpred.1.1.1, hpred.1.1.2, hpred.2]
        rw [hnil] at hmemf
        cases hmemf
      rw [hany]
      simp only [Bool.false_eq_true, if_false]
      rw [rowsForPlayer_append, hnil]
      simp [rowsForPlayer, lineupKey]
    · rw [if_neg hcur, if_neg hpos]
      have hrows := findPos_nonempty hu rfl hcur
      have hdel : rowsForPlayer (lu.filter (fun r =>
          !(r.game_id == g && r.inning == i && r.position == findPos lu g i p
            && r.player_name == p))) g i p = [] := by
        rw [rowsForPlayer_filter, hrows]
        simp
      have hany : (lu.filter (fun r =>
          !(r.game_id == g && r.inning == i && r.position == findPos lu g i p
            && r.player_name == p))).any (fun r =>
          r.game_id == g && r.inning == i && r.position == pos && r.player_name == p) = false := by
        rw [List.any_eq_false]
        intro r hr hpred
        simp only [Bool.and_eq_true, beq_iff_eq] at hpred
        have hmemf : r ∈ rowsForPlayer (lu.filter (fun r =>
            !(r.game_id == g && r.inning == i && r.position == findPos lu g i p
              && r.player_name == p))) g i p := by
          refine List.mem_filter.mpr ⟨hr, ?_⟩
          simp [lineupKey, hpred.1.1.1, hpred.1.1.2, hpred.2]
        rw [hdel] at hmemf
        cases hmemf
      rw [hany]
      simp only [Bool.false_eq_true, if_false]
      rw [rowsForPlayer_append, hdel]
      simp [rowsForPlayer, lineupKey]

theorem setCell_self_blank (lu : Lineup) (g i : Nat) (p : String)
    (hu : playerUnique lu) (hb : noBlankPos lu) :
    rowsForPlayer (setCell lu g i p "") g i p = [] := by
  simp only [setCell]
  by_cases hc : ("" : String) = findPos lu g i p
  · rw [if_pos hc]
    exact findPos_empty hb hc.symm
  · rw [if_neg hc]
    have hcur : findPos lu g i p ≠ "" := fun h => hc h.symm
    rw [if_neg hcur]
    simp only [if_true]
    have hrows := findPos_nonempty hu rfl hcur
    rw [rowsForPlayer_filter, hrows]
    simp

theorem setCell_frame (lu : Lineup) (g i : Nat) (p pos : String)
    (g' i' : Nat) (p' : String) (hne : ¬(g' = g ∧ i' = i ∧ p' = p)) :
    rowsForPlayer (setCell lu g i p pos) g' i' p' = rowsForPlayer lu g' i' p' := by
  have hkey : ∀ r : LineupRow, r ∈ rowsForPlayer lu g' i' p' →
      ¬(r.game_id = g ∧ r.inning = i ∧ r.player_name = p) := by
    intro r hr hcon
    have hk := (List.mem_filter.mp hr).2
    simp only [lineupKey, Bool.and_eq_true, beq_iff_eq] at hk
    exact hne ⟨hk.1.1 ▸ hcon.1, hk.1.2 ▸ hcon.2.1, hk.2 ▸ hcon.2.2⟩
  have hdel : ∀ c : String, rowsForPlayer (lu.filter (fun r =>
      !(r.game_id == g && r.inning == i && r.position == c && r.player_name == p)))
        g' i' p' = rowsForPlayer lu g' i' p' := by
    intro c
    rw [rowsForPlayer_filter]
    refine List.filter_eq_self.mpr (fun r hr => ?_)
    have hfls : (r.game_id == g && r.inning == i && r.position == c
        && r.player_name == p) = false := by
      by_contra hcon
      rw [Bool.not_eq_false] at hcon
      simp only [Bool.and_eq_true, beq_iff_eq] at hcon
      exact hkey r hr ⟨hcon.1.1.1, hcon.1.1.2, hcon.2⟩
    simp [hfls]
  have hnew : ∀ (lx : Lineup) (pos0 : String),
      rowsForPlayer (lx ++ [⟨g, i, pos0, p⟩]) g' i' p' = rowsForPlayer lx g' i' p' := by
    intro lx pos0
    rw [rowsForPlayer_append]
    have : rowsForPlayer [⟨g, i, pos0, p⟩] g' i' p' = [] := by
      simp only [rowsForPlayer, lineupKey]
      rw [List.filter_eq_nil_iff]
      intro a ha
      simp only [List.mem_singleton] at ha
      subst ha
      intro hcon
      simp only [lineupKey, Bool.and_eq_true, beq_iff_eq] at hcon
      exact hne ⟨hcon.1.1.symm, hcon.1.2.symm, hcon.2.symm⟩
    rw [this, List.append_nil]
  simp only [setCell]
  by_cases h1 : pos = findPos lu g i p
  · rw [if_pos h1]
  · rw [if_neg h1]
    set lu1 := (if findPos lu g i p = "" then lu
      else lu.filter (fun r => !(r.game_id == g && r.inning == i
        && r.position == findPos lu g i p && r.player_name == p))) with hlu1def
    have hlu1 : rowsForPlayer lu1 g' i' p' = rowsForPlayer lu g' i' p' := by
      rw [hlu1def]
      by_cases h3 : findPos lu g i p = ""
      · rw [if_pos h3]
      · rw [if_neg h3]; exact hdel _
    by_cases h2 : pos = ""
    · rw [if_pos h2]; exact hlu1
    · rw [if_neg h2]
      by_cases h4 : (lu1.any fun r => r.game_id == g && r.inning == i
          && r.position == pos && r.player_name == p) = true
      · rw [if_pos h4]; exact hlu1
      · rw [if_neg h4, hnew lu1 pos]; exact hlu1

theorem setCell_playerUnique (lu : Lineup) (g i : Nat) (p pos : String)
    (hu : playerUnique lu) (hb : noBlankPos lu) :
    playerUnique (setCell lu g i p pos) := by
  intro g' i' p'
  by_cases hk : g' = g ∧ i' = i ∧ p' = p
  · obtain ⟨rfl, rfl, rfl⟩ := hk
    by_cases hpos : pos = ""
    · subst hpos
      rw [setCell_self_blank lu g' i' p' hu hb]
      exact Nat.zero_le 1
    · rw [setCell_self_pos lu g' i' p' hu hb hpos]
      exact Nat.le.refl
  · rw [setCell_frame lu g i p pos g' i' p' hk]
    exact hu g' i' p'

theorem setCell_noBlankPos (lu : Lineup) (g i : Nat) (p pos : String)
    (hb : noBlankPos lu) : noBlankPos (setCell lu g i p pos) := by
  intro r hr
  simp only [setCell] at hr
  by_cases h1 : pos = findPos lu g i p
  · rw [if_pos h1] at hr; exact hb r hr
  · rw [if_neg h1] at hr
    set lu1 := (if findPos lu g i p = "" then lu
      else lu.filter (fun r => !(r.game_id == g && r.inning == i
        && r.position == findPos lu g i p && r.player_name == p))) with hlu1def
    have hlu1 : ∀ x ∈ lu1, x.position ≠ "" := by
      rw [hlu1def]
      by_cases h3 : findPos lu g i p = ""
      · rw [if_pos h3]; exact hb
      · rw [if_neg h3]; exact fun x hx => hb x (List.mem_of_mem_filter hx)
    by_cases h2 : pos = ""
    · rw [if_pos h2] at hr; exact hlu1 r hr
    · rw [if_neg h2] at hr
      by_cases h4 : (lu1.any fun r => r.game_id == g && r.inning == i
          && r.position == pos && r.player_name == p) = true
      · rw [if_pos h4] at hr; exact hlu1 r hr
      · rw [if_neg h4] at hr
        rcases List.mem_append.mp hr with h | h
        · exact hlu1 r h
        · simp only [List.mem_singleton] at h
          subst h
          exact h2

/-- Claim C1: for every game, inning, player and position, setCell first
removes the player's existing assignment for that (game, inning) if any,
then, if the given position is non-empty, inserts
(game, inning, position, player); setting the same player to two different
positions in the same inning in sequence leaves exactly one assignment for
that player in that inning (the second overwrites the first), while setting
two different players to the same position in the same inning leaves two
assignments, neither evicting the other. -/
theorem setCell_overwrite_and_no_evict (lu : Lineup) (g i : Nat) (p pos : String)
    (hu : playerUnique lu) (hb : noBlankPos lu) :
    (pos ≠ "" → rowsForPlayer (setCell lu g i p pos) g i p = [⟨g, i, pos, p⟩])
    ∧ (pos = "" → rowsForPlayer (setCell lu g i p pos) g i p = [])
    ∧ (∀ g' i' p', ¬(g' = g ∧ i' = i ∧ p' = p) →
        rowsForPlayer (setCell lu g i p pos) g' i' p' = rowsForPlayer lu g' i' p')
    ∧ (∀ pos2, pos2 ≠ "" →
        rowsForPlayer (setCell (setCell lu g i p pos) g i p pos2) g i p = [⟨g, i, pos2, p⟩])
    ∧ (∀ p2, p2 ≠ p → pos ≠ "" →
        rowsForPlayer (setCell (setCell lu g i p pos) g i p2 pos) g i p = [⟨g, i, pos, p⟩]
        ∧ rowsForPlayer (setCell (setCell lu g i p pos) g i p2 pos) g i p2
            = [⟨g, i, pos, p2⟩]) := by
  have hu1 := setCell_playerUnique lu g i p pos hu hb
  have hb1 := setCell_noBlankPos lu g i p pos hb
  refine ⟨fun h => setCell_self_pos lu g i p hu hb h,
          fun h => h ▸ setCell_self_blank lu g i p hu hb,
          setCell_frame lu g i p pos, fun pos2 h2 => ?_, fun p2 hne hpos => ⟨?_, ?_⟩⟩
  · exact setCell_self_pos _ g i p hu1 hb1 h2
  · rw [setCell_frame _ g i p2 pos g i p (fun hcon => hne hcon.2.2.symm)]
    exact setCell_self_pos lu g i p hu hb hpos
  · exact setCell_self_pos _ g i p2 hu1 hb1 hpos

/-- Witness for claim C1 at a concrete input: on an empty lineup table,
assigning Alice to Pitcher and then Catcher in inning 1 leaves her with
exactly the Catcher row, and assigning Bob to Pitcher after Alice leaves
both Pitcher rows. -/
theorem setCell_overwrite_and_no_evict_witness :
    rowsForPlayer (setCell (setCell [] 1 1 "Alice" "Pitcher") 1 1 "Alice" "Catcher") 1 1 "Alice"
      = [⟨1, 1, "Catcher", "Alice"⟩]
    ∧ rowsForPlayer (setCell (setCell [] 1 1 "Alice" "Pitcher") 1 1 "Bob" "Pitcher") 1 1 "Alice"
      = [⟨1, 1, "Pitcher", "Alice"⟩]
    ∧ rowsForPlayer (setCell (setCell [] 1 1 "Alice" "Pitcher") 1 1 "Bob" "Pitcher") 1 1 "Bob"
      = [⟨1, 1, "Pitcher", "Bob"⟩] := by
  have h := setCell_overwrite_and_no_evict [] 1 1 "Alice" "Pitcher"
    (fun _ _ _ => Nat.zero_le 1) (fun r hr => absurd hr (List.not_mem_nil r))
  exact ⟨h.2.2.2.1 "Catcher" (by decide),
         (h.2.2.2.2 "Bob" (by decide) (by decide)).1,
         (h.2.2.2.2 "Bob" (by decide) (by decide)).2⟩

/-- All rows of the lineup table for one (game, inning). -/
def rowsAt (lu : Lineup) (g k : Nat) : Lineup :=
  lu.filter (fun r => r.game_id == g && r.inning == k)

/-- One iteration of the copy loop (app.py lines 944-955): delete every row
of the target inning for the game, then insert a copy of each inning-1
(position, player) pair whose position is non-blank. -/
def copyStep (g : Nat) (firstInning : List (String × String)) (acc : Lineup) (k : Nat) :
    Lineup :=
  acc.filter (fun r => !(r.game_id == g && r.inning == k)) ++
    (firstInning.filter (fun pr => !(pr.1 == ""))).map (fun pr => ⟨g, k, pr.1, pr.2⟩)

/-- The Copy Inning 1 to All button (app.py lines 937-957): fetch the
(position, player) pairs of inning 1, then run the copy loop for
innings 2 through 7. -/
def copyInningOneToAll (lu : Lineup) (g : Nat) : Lineup :=
  let firstInning := (lu.filter (fun r => r.game_id == g && r.inning == 1)).map
    (fun r => (r.position, r.player_name))
  [2, 3, 4, 5, 6, 7].foldl (copyStep g firstInning) lu

/-- The Reset Lineup button (app.py lines 960-965): delete every
lineup_positions row of the game. -/
def resetLineup (lu : Lineup) (g : Nat) : Lineup :=
  lu.filter (fun r => !(r.game_id == g))

theorem rowsAt_copyStep_ne (g : Nat) (fi : List (String × String)) (acc : Lineup)
    (k kt : Nat) (h : k ≠ kt) :
    rowsAt (copyStep g fi acc kt) g k = rowsAt acc g k := by
  unfold copyStep rowsAt
  rw [List.filter_append, List.filter_filter, List.filter_map]
  have h1 : acc.filter (fun a => (a.game_id == g && a.inning == k)
      && !(a.game_id == g && a.inning == kt))
      = acc.filter (fun a => a.game_id == g && a.inning == k) := by
    refine List.filter_congr (fun a _ => ?_)
    by_cases hp : (a.game_id == g && a.inning == k) = true
    · simp only [Bool.and_eq_true, beq_iff_eq] at hp
      simp [hp.1, hp.2, h]
    · simp only [Bool.not_eq_true] at hp
      simp [hp]
  have h2 : (fi.filter (fun pr => !(pr.1 == ""))).filter
      ((fun r : LineupRow => r.game_id == g && r.inning == k)
        ∘ (fun pr : String × String => (⟨g, kt, pr.1, pr.2⟩ : LineupRow))) = [] := by
    rw [List.filter_eq_nil_iff]
    intro a _
    simp only [Function.comp, Bool.and_eq_true, beq_iff_eq, not_and]
    exact fun _ hkt => h hkt.symm
  rw [h1, h2]
  simp

theorem rowsAt_copyStep_eq (g : Nat) (fi : List (String × String)) (acc : Lineup)
    (k : Nat) :
    rowsAt (copyStep g fi acc k) g k
      = (fi.filter (fun pr => !(pr.1 == ""))).map (fun pr => ⟨g, k, pr.1, pr.2⟩) := by
  unfold copyStep rowsAt
  rw [List.filter_append, List.filter_filter, List.filter_map]
  have h1 : acc.filter (fun a => (a.game_id == g && a.inning == k)
      && !(a.game_id == g && a.inning == k)) = [] := by
    rw [List.filter_eq_nil_iff]
    intro a _
    by_cases hp : (a.game_id == g && a.inning == k) = true
    · simp [hp]
    · simp only [Bool.not_eq_true] at hp
      simp [hp]
  have h2 : (fi.filter (fun pr => !(pr.1 == ""))).filter
      ((fun r : LineupRow => r.game_id == g && r.inning == k)
        ∘ (fun pr : String × String => (⟨g, k, pr.1, pr.2⟩ : LineupRow))) =
      fi.filter (fun pr => !(pr.1 == "")) := by
    refine List.filter_eq_self.mpr (fun a _ => ?_)
    simp [Function.comp]
  rw [h1, h2]
  simp

theorem rowsAt_resetLineup (lu : Lineup) (g k : Nat) :
    rowsAt (resetLineup lu g) g k = [] := by
  unfold resetLineup rowsAt
  rw [List.filter_filter, List.filter_eq_nil_iff]
  intro a _
  by_cases hp : (a.game_id == g) = true
  · simp [hp]
  · simp only [Bool.not_eq_true] at hp
    simp [hp]

/-- Claim C6: copyInningOneToAll deletes all existing assignments for each
of innings 2 through 7 and inserts a copy of every non-blank
(position, player) assignment of inning 1 into each (blank positions are
not propagated); resetLineup deletes every lineup assignment of the game,
so copyInningOneToAll followed by resetLineup leaves the lineup grid empty
for all seven innings. -/
theorem copyInningOneToAll_then_reset (lu : Lineup) (g : Nat) :
    (∀ k, 2 ≤ k → k ≤ 7 →
      rowsAt (copyInningOneToAll lu g) g k
        = (((rowsAt lu g 1).map (fun r => (r.position, r.player_name))).filter
            (fun pr => !(pr.1 == ""))).map (fun pr => ⟨g, k, pr.1, pr.2⟩))
    ∧ (∀ r ∈ resetLineup (copyInningOneToAll lu g) g, r.game_id ≠ g)
    ∧ (∀ k, rowsAt (resetLineup (copyInningOneToAll lu g) g) g k = []) := by
  refine ⟨?_, ?_, fun k => rowsAt_resetLineup _ g k⟩
  · intro k h2 h7
    simp only [copyInningOneToAll, List.foldl_cons, List.foldl_nil]
    interval_cases k
    · rw [rowsAt_copyStep_ne g _ _ 2 7 (by decide), rowsAt_copyStep_ne g _ _ 2 6 (by decide),
          rowsAt_copyStep_ne g _ _ 2 5 (by decide), rowsAt_copyStep_ne g _ _ 2 4 (by decide),
          rowsAt_copyStep_ne g _ _ 2 3 (by decide), rowsAt_copyStep_eq g _ _ 2]
      rfl
    · rw [rowsAt_copyStep_ne g _ _ 3 7 (by decide), rowsAt_copyStep_ne g _ _ 3 6 (by decide),
          rowsAt_copyStep_ne g _ _ 3 5 (by decide), rowsAt_copyStep_ne g _ _ 3 4 (by decide),
          rowsAt_copyStep_eq g _ _ 3]
      rfl
    · rw [rowsAt_copyStep_ne g _ _ 4 7 (by decide), rowsAt_copyStep_ne g _ _ 4 6 (by decide),
          rowsAt_copyStep_ne g _ _ 4 5 (by decide), rowsAt_copyStep_eq g _ _ 4]
      rfl
    · rw [rowsAt_copyStep_ne g _ _ 5 7 (by decide), rowsAt_copyStep_ne g _ _ 5 6 (by decide),
          rowsAt_copyStep_eq g _ _ 5]
      rfl
    · rw [rowsAt_copyStep_ne g _ _ 6 7 (by decide), rowsAt_copyStep_eq g _ _ 6]
      rfl
    · rw [rowsAt_copyStep_eq g _ _ 7]
      rfl
  · intro r hr
    have hpred := (List.mem_filter.mp hr).2
    intro hg
    rw [hg] at hpred
    simp at hpred

/-- Witness for claim C6 at a concrete input: a one-row inning-1 lineup is
copied into inning 3, and the reset empties it. -/
theorem copyInningOneToAll_then_reset_witness :
    rowsAt (copyInningOneToAll [⟨1, 1, "Pitcher", "Alice"⟩] 1) 1 3
      = [⟨1, 3, "Pitcher", "Alice"⟩]
    ∧ rowsAt (resetLineup (copyInningOneToAll [⟨1, 1, "Pitcher", "Alice"⟩] 1) 1) 1 3 = [] := by
  have h := copyInningOneToAll_then_reset [⟨1, 1, "Pitcher", "Alice"⟩] 1
  exact ⟨(h.1 3 (by decide) (by decide)).trans (by decide), h.2.2 3⟩

/-- Row of table game_player_status: (game_id, player_name, status,
is_substitute, kicking_order), with a UNIQUE(game_id, player_name)
constraint and kicking_order NULL modelled as none. -/
structure StatusRow where
  game_id : Nat
  player_name : String
  status : String
  is_substitute : Bool
  kicking_order : Option Nat
deriving DecidableEq, Repr

abbrev StatusTable := List StatusRow

/-- WHERE clause game_id = g AND player_name = p. -/
def statusKey (g : Nat) (p : String) (r : StatusRow) : Bool :=
  r.game_id == g && r.player_name == p

/-- SELECT ... WHERE game_id = ? AND player_name = ?, fetchone. -/
def lookupStatusRow (t : StatusTable) (g : Nat) (p : String) : Option StatusRow :=
  t.find? (statusKey g p)

/-- All rows of game_player_status for one (game, player). -/
def statusRowsFor (t : StatusTable) (g : Nat) (p : String) : StatusTable :=
  t.filter (statusKey g p)

/-- INSERT OR REPLACE on the UNIQUE(game_id, player_name) key: SQLite
deletes any conflicting row and appends the new one. -/
def insertOrReplace (t : StatusTable) (r : StatusRow) : StatusTable :=
  t.filter (fun x => !(statusKey r.game_id r.player_name x)) ++ [r]

/-- SELECT COALESCE(MAX(kicking_order), 0) over the IN rows of a game
(app.py lines 632-635); MAX ignores NULL orders. -/
def maxInOrder (t : StatusTable) (g : Nat) : Nat :=
  t.foldl (fun m r =>
    if r.game_id == g && r.status == "IN" then
      match r.kicking_order with
      | some k => max m k
      | none => m
    else m) 0

/-- The toggle_player handler (app.py lines 607-642): pool membership
decides the default status of a rowless player (OUT for substitutes, IN
for the main roster); a rowless player is first inserted with that default
status and a NULL order (INSERT OR IGNORE); then an IN player is replaced
by an OUT row with NULL order, and a non-IN player by an IN row with order
max+1 over the IN rows of the game. -/
def toggleStatus (t : StatusTable) (subs : List String) (g : Nat) (p : String) :
    StatusTable :=
  let is_sub := subs.contains p
  let result := lookupStatusRow t g p
  let current_status := match result with
    | some r => r.status
    | none => if is_sub then "OUT" else "IN"
  let t1 := match result with
    | some _ => t
    | none => t ++ [⟨g, p, current_status, is_sub, none⟩]
  if current_status = "IN" then
    insertOrReplace t1 ⟨g, p, "OUT", is_sub, none⟩
  else
    insertOrReplace t1 ⟨g, p, "IN", is_sub, some (maxInOrder t1 g + 1)⟩

/-- The status a player is treated as having: the stored row if present,
else the pool default (OUT for substitutes, IN for the main roster). -/
def effectiveStatus (t : StatusTable) (subs : List String) (g : Nat) (p : String) :
    String :=
  match lookupStatusRow t g p with
  | some r => r.status
  | none => if subs.contains p then "OUT" else "IN"

theorem lookup_insertOrReplace (t : StatusTable) (r : StatusRow) :
    lookupStatusRow (insertOrReplace t r) r.game_id r.player_name = some r := by
  unfold lookupStatusRow insertOrReplace
  rw [List.find?_append]
  have h1 : (t.filter (fun x => !(statusKey r.game_id r.player_name x))).find?
      (statusKey r.game_id r.player_name) = none := by
    rw [List.find?_eq_none]
    intro x hx
    have hk := (List.mem_filter.mp hx).2
    rw [Bool.not_eq_true'] at hk
    simp [hk]
  rw [h1]
  simp [statusKey]

theorem maxInOrder_append_notIn (t : StatusTable) (r : StatusRow) (g : Nat)
    (h : r.status ≠ "IN") : maxInOrder (t ++ [r]) g = maxInOrder t g := by
  unfold maxInOrder
  rw [List.foldl_append]
  simp only [List.foldl_cons, List.foldl_nil]
  have hb : (r.status == "IN") = false := beq_eq_false_iff_ne.mpr h
  simp [hb]

theorem toggle_of_lookup_not_in (t : StatusTable) (subs : List String) (g : Nat)
    (p : String) (r : StatusRow) (hl : lookupStatusRow t g p = some r)
    (hs : ¬(r.status = "IN")) :
    toggleStatus t subs g p
      = insertOrReplace t ⟨g, p, "IN", subs.contains p, some (maxInOrder t g + 1)⟩ := by
  simp only [toggleStatus, hl]
  rw [if_neg hs]

theorem toggle_of_lookup_in (t : StatusTable) (subs : List String) (g : Nat)
    (p : String) (r : StatusRow) (hl : lookupStatusRow t g p = some r)
    (hs : r.status = "IN") :
    toggleStatus t subs g p = insertOrReplace t ⟨g, p, "OUT", subs.contains p, none⟩ := by
  simp only [toggleStatus, hl]
  rw [if_pos hs]

theorem toggle_of_lookup_none_main (t : StatusTable) (subs : List String) (g : Nat)
    (p : String) (hl : lookupStatusRow t g p = none) (hc : subs.contains p = false) :
    toggleStatus t subs g p
      = insertOrReplace (t ++ [⟨g, p, "IN", false, none⟩]) ⟨g, p, "OUT", false, none⟩ := by
  simp only [toggleStatus, hl, hc]
  simp

theorem toggle_of_lookup_none_sub (t : StatusTable) (subs : List String) (g : Nat)
    (p : String) (hl : lookupStatusRow t g p = none) (hc : subs.contains p = true) :
    toggleStatus t subs g p
      = insertOrReplace (t ++ [⟨g, p, "OUT", true, none⟩])
          ⟨g, p, "IN", true, some (maxInOrder t g + 1)⟩ := by
  simp only [toggleStatus, hl, hc, if_true]
  rw [if_neg (by decide : ¬(("OUT" : String) = "IN"))]
  rw [maxInOrder_append_notIn t _ g (by simp)]

theorem effectiveStatus_of_lookup (t : StatusTable) (subs : List String) (g : Nat)
    (p : String) (r : StatusRow) (hl : lookupStatusRow t g p = some r) :
    effectiveStatus t subs g p = r.status := by
  unfold effectiveStatus
  rw [hl]

/-- Claim C2: toggleStatus flips the status IN and OUT; the transition to
OUT sets the kicking order to null, the transition to IN sets it to the
current maximum kicking order among IN players of the game plus one, and
toggling IN, OUT, IN again yields status IN with kicking order equal to the
maximum IN order at the time of the second toggle plus one, which need not
equal the original order. -/
theorem toggleStatus_flip_and_order (t : StatusTable) (subs : List String) (g : Nat)
    (p : String) (hwf : ∀ r ∈ t, r.status = "IN" ∨ r.status = "OUT") :
    (effectiveStatus (toggleStatus t subs g p) subs g p
      = (if effectiveStatus t subs g p = "IN" then "OUT" else "IN"))
    ∧ (effectiveStatus t subs g p = "IN" →
        lookupStatusRow (toggleStatus t subs g p) g p
          = some ⟨g, p, "OUT", subs.contains p, none⟩)
    ∧ (effectiveStatus t subs g p = "OUT" →
        lookupStatusRow (toggleStatus t subs g p) g p
          = some ⟨g, p, "IN", subs.contains p, some (maxInOrder t g + 1)⟩)
    ∧ (effectiveStatus t subs g p = "IN" →
        lookupStatusRow (toggleStatus (toggleStatus t subs g p) subs g p) g p
          = some ⟨g, p, "IN", subs.contains p,
              some (maxInOrder (toggleStatus t subs g p) g + 1)⟩) := by
  have step2 : ∀ t', lookupStatusRow t' g p = some ⟨g, p, "OUT", subs.contains p, none⟩ →
      lookupStatusRow (toggleStatus t' subs g p) g p
        = some ⟨g, p, "IN", subs.contains p, some (maxInOrder t' g + 1)⟩ := by
    intro t' hl'
    rw [toggle_of_lookup_not_in t' subs g p _ hl' (by simp)]
    exact lookup_insertOrReplace t' _
  cases hl : lookupStatusRow t g p with
  | some r =>
    have he := effectiveStatus_of_lookup t subs g p r hl
    rcases hwf r (List.mem_of_find?_eq_some hl) with hs | hs
    · have htog := toggle_of_lookup_in t subs g p r hl hs
      have hlook1 : lookupStatusRow (toggleStatus t subs g p) g p
          = some ⟨g, p, "OUT", subs.contains p, none⟩ := by
        rw [htog]; exact lookup_insertOrReplace t _
      refine ⟨?_, fun _ => hlook1, ?_, fun _ => step2 _ hlook1⟩
      · rw [effectiveStatus_of_lookup _ subs g p _ hlook1, he, hs, if_pos rfl]
      · intro hout
        rw [he, hs] at hout
        exact absurd hout (by decide)
    · have htog := toggle_of_lookup_not_in t subs g p r hl (by rw [hs]; decide)
      have hlook1 : lookupStatusRow (toggleStatus t subs g p) g p
          = some ⟨g, p, "IN", subs.contains p, some (maxInOrder t g + 1)⟩ := by
        rw [htog]; exact lookup_insertOrReplace t _
      have hcon : ¬(effectiveStatus t subs g p = "IN") := by
        rw [he, hs]; decide
      refine ⟨?_, fun h => absurd h hcon, fun _ => hlook1, fun h => absurd h hcon⟩
      rw [effectiveStatus_of_lookup _ subs g p _ hlook1, if_neg hcon]
  | none =>
    by_cases hcb : subs.contains p = true
    · have he : effectiveStatus t subs g p = "OUT" := by
        unfold effectiveStatus
        rw [hl, hcb]
        simp
      have htog := toggle_of_lookup_none_sub t subs g p hl hcb
      have hlook1 : lookupStatusRow (toggleStatus t subs g p) g p
          = some ⟨g, p, "IN", subs.contains p, some (maxInOrder t g + 1)⟩ := by
        rw [htog, hcb]
        exact lookup_insertOrReplace _ _
      have hcon : ¬(effectiveStatus t subs g p = "IN") := by
        rw [he]; decide
      refine ⟨?_, fun h => absurd h hcon, fun _ => hlook1, fun h => absurd h hcon⟩
      rw [effectiveStatus_of_lookup _ subs g p _ hlook1, if_neg hcon]
    · have hc : subs.contains p = false := Bool.not_eq_true _ ▸ Bool.eq_false_iff.mpr hcb
      have he : effectiveStatus t subs g p = "IN" := by
        unfold effectiveStatus
        rw [hl, hc]
        simp
      have htog := toggle_of_lookup_none_main t subs g p hl hc
      have hlook1 : lookupStatusRow (toggleStatus t subs g p) g p
          = some ⟨g, p, "OUT", subs.contains p, none⟩ := by
        rw [htog, hc]
        exact lookup_insertOrReplace _ _
      refine ⟨?_, fun _ => hlook1, ?_, fun _ => step2 _ hlook1⟩
      · rw [effectiveStatus_of_lookup _ subs g p _ hlook1, he, if_pos rfl]
      · intro hout
        rw [he] at hout
        exact absurd hout.symm (by decide)

/-- Witness for claim C2 at a concrete input: Al (order 5) and Bo (order 2)
are IN; toggling Al leaves an OUT row with null order, and toggling Al
again leaves an IN row with order max(2)+1 = 3, not the original 5. -/
theorem toggleStatus_flip_and_order_witness :
    lookupStatusRow (toggleStatus
        [⟨1, "Al", "IN", false, some 5⟩, ⟨1, "Bo", "IN", false, some 2⟩] [] 1 "Al") 1 "Al"
      = some ⟨1, "Al", "OUT", false, none⟩
    ∧ lookupStatusRow (toggleStatus (toggleStatus
        [⟨1, "Al", "IN", false, some 5⟩, ⟨1, "Bo", "IN", false, some 2⟩] [] 1 "Al")
          [] 1 "Al") 1 "Al"
      = some ⟨1, "Al", "IN", false, some 3⟩ := by
  have h := toggleStatus_flip_and_order
    [⟨1, "Al", "IN", false, some 5⟩, ⟨1, "Bo", "IN", false, some 2⟩] [] 1 "Al" (by decide)
  refine ⟨h.2.1 (by decide), ?_⟩
  have h4 := h.2.2.2 (by decide)
  exact h4.trans (by decide)

/-- The substitute status initialization on page load (app.py lines
703-716): walk the substitutes in order, record the stored status when a
row exists, and otherwise report OUT and INSERT an (OUT, is_substitute,
NULL order) row.  Returns the resulting table and the reported
(name, status) pairs. -/
def initSubsAux (t : StatusTable) (g : Nat) :
    List String → StatusTable × List (String × String)
  | [] => (t, [])
  | s :: rest =>
    match lookupStatusRow t g s with
    | some r =>
        let res := initSubsAux t g rest
        (res.1, (s, r.status) :: res.2)
    | none =>
        let res := initSubsAux (t ++ [⟨g, s, "OUT", true, none⟩]) g rest
        (res.1, (s, "OUT") :: res.2)

/-- The roster status defaulting on page load (app.py lines 644-649): every
main-roster player is reported with the stored status, defaulting to IN
when no row exists; nothing is written. -/
def rosterStatusList (t : StatusTable) (mainRoster : List String) (g : Nat) :
    List (String × String) :=
  mainRoster.map (fun p =>
    (p, match lookupStatusRow t g p with
        | some r => r.status
        | none => "IN"))

theorem insertOrReplace_mem {t : StatusTable} {x r : StatusRow}
    (h : r ∈ insertOrReplace t x) : r ∈ t ∨ r = x := by
  unfold insertOrReplace at h
  rcases List.mem_append.mp h with h | h
  · exact Or.inl (List.mem_of_mem_filter h)
  · simp only [List.mem_singleton] at h
    exact Or.inr h

theorem toggleStatus_mem {t : StatusTable} {subs : List String} {g : Nat} {p : String}
    {r : StatusRow} (hr : r ∈ toggleStatus t subs g p) :
    r ∈ t ∨ r.kicking_order = none ∨ r.status = "IN" := by
  simp only [toggleStatus] at hr
  cases hl : lookupStatusRow t g p with
  | some r0 =>
    rw [hl] at hr
    by_cases hs : r0.status = "IN"
    · rw [if_pos hs] at hr
      rcases insertOrReplace_mem hr with h | h
      · exact Or.inl h
      · subst h
        exact Or.inr (Or.inl rfl)
    · rw [if_neg hs] at hr
      rcases insertOrReplace_mem hr with h | h
      · exact Or.inl h
      · subst h
        exact Or.inr (Or.inr rfl)
  | none =>
    rw [hl] at hr
    by_cases hs : (if subs.contains p = true then ("OUT" : String) else "IN") = "IN"
    · rw [if_pos hs] at hr
      rcases insertOrReplace_mem hr with h | h
      · rcases List.mem_append.mp h with h | h
        · exact Or.inl h
        · simp only [List.mem_singleton] at h
          subst h
          exact Or.inr (Or.inl rfl)
      · subst h
        exact Or.inr (Or.inl rfl)
    · rw [if_neg hs] at hr
      rcases insertOrReplace_mem hr with h | h
      · rcases List.mem_append.mp h with h | h
        · exact Or.inl h
        · simp only [List.mem_singleton] at h
          subst h
          exact Or.inr (Or.inl rfl)
      · subst h
        exact Or.inr (Or.inr rfl)

theorem initSubsAux_mem {g : Nat} : ∀ (subs : List String) (t : StatusTable)
    (r : StatusRow), r ∈ (initSubsAux t g subs).1 → r ∈ t ∨ r.kicking_order = none := by
  intro subs
  induction subs with
  | nil => exact fun t r hr => Or.inl hr
  | cons s rest ih =>
    intro t r hr
    simp only [initSubsAux] at hr
    cases hl : lookupStatusRow t g s with
    | some r0 =>
      rw [hl] at hr
      exact ih t r hr
    | none =>
      rw [hl] at hr
      rcases ih _ r hr with h | h
      · rcases List.mem_append.mp h with h | h
        · exact Or.inl h
        · simp only [List.mem_singleton] at h
          subst h
          exact Or.inr rfl
      · exact Or.inr h

/-- Claim C9: every operation that writes an OUT status (toggling a player
to OUT, or initializing a substitute's default row) writes a null kicking
order, so the invariant that every OUT row of game_player_status has a
null kicking order is preserved. -/
theorem out_rows_have_null_order (t : StatusTable) (subs : List String) (g : Nat)
    (p : String) (hinv : ∀ r ∈ t, r.status = "OUT" → r.kicking_order = none) :
    (∀ r ∈ toggleStatus t subs g p, r.status = "OUT" → r.kicking_order = none)
    ∧ (∀ r ∈ (initSubsAux t g subs).1, r.status = "OUT" → r.kicking_order = none) := by
  constructor
  · intro r hr hout
    rcases toggleStatus_mem hr with h | h | h
    · exact hinv r h hout
    · exact h
    · exact absurd (h.symm.trans hout) (by decide)
  · intro r hr hout
    rcases initSubsAux_mem subs t r hr with h | h
    · exact hinv r h hout
    · exact h

/-- Witness for claim C9 at a concrete input: toggling IN player Al to OUT
leaves a row whose kicking order is null. -/
theorem out_rows_have_null_order_witness :
    (⟨1, "Al", "OUT", false, none⟩ : StatusRow).kicking_order = none := by
  have h := out_rows_have_null_order [⟨1, "Al", "IN", false, some 1⟩] ["Sam"] 1 "Al"
    (by decide)
  exact h.1 ⟨1, "Al", "OUT", false, none⟩ (by decide) (by decide)

theorem statusRowsFor_append_other (t : StatusTable) (x : StatusRow) (g2 : Nat)
    (p : String) (hx : statusKey g2 p x = false) :
    statusRowsFor (t ++ [x]) g2 p = statusRowsFor t g2 p := by
  unfold statusRowsFor
  rw [List.filter_append]
  simp [hx]

theorem lookupStatusRow_append_other (t : StatusTable) (x : StatusRow) (g2 : Nat)
    (p : String) (hx : statusKey g2 p x = false) :
    lookupStatusRow (t ++ [x]) g2 p = lookupStatusRow t g2 p := by
  unfold lookupStatusRow
  rw [List.find?_append]
  have h1 : [x].find? (statusKey g2 p) = none := by
    simp [List.find?_cons, hx]
  rw [h1, Option.or_none]

theorem initSubsAux_keeps {g : Nat} {s : String} : ∀ (subs : List String)
    (t : StatusTable) (r : StatusRow), lookupStatusRow t g s = some r →
    statusRowsFor (initSubsAux t g subs).1 g s = statusRowsFor t g s := by
  intro subs
  induction subs with
  | nil => intro t r _; rfl
  | cons s2 rest ih =>
    intro t r hl
    simp only [initSubsAux]
    cases hl2 : lookupStatusRow t g s2 with
    | some r2 =>
      exact ih t r hl
    | none =>
      show statusRowsFor (initSubsAux (t ++ [⟨g, s2, "OUT", true, none⟩]) g rest).1 g s
        = statusRowsFor t g s
      have hss : s2 ≠ s := by
        intro h
        rw [h] at hl2
        rw [hl2] at hl
        cases hl
      have hkf : statusKey g s ⟨g, s2, "OUT", true, none⟩ = false := by
        simp [statusKey, hss]
      have hl' : lookupStatusRow (t ++ [⟨g, s2, "OUT", true, none⟩]) g s = some r := by
        rw [lookupStatusRow_append_other t _ g s hkf]
        exact hl
      exact (ih _ r hl').trans (statusRowsFor_append_other t _ g s hkf)

theorem initSubsAux_creates {g : Nat} {s : String} : ∀ (subs : List String)
    (t : StatusTable), s ∈ subs → lookupStatusRow t g s = none →
    statusRowsFor (initSubsAux t g subs).1 g s = [⟨g, s, "OUT", true, none⟩] := by
  intro subs
  induction subs with
  | nil => intro t hmem _; cases hmem
  | cons s2 rest ih =>
    intro t hmem hl
    simp only [initSubsAux]
    by_cases hss : s2 = s
    · subst hss
      rw [hl]
      show statusRowsFor (initSubsAux (t ++ [⟨g, s2, "OUT", true, none⟩]) g rest).1 g s2
        = [⟨g, s2, "OUT", true, none⟩]
      have hl' : lookupStatusRow (t ++ [⟨g, s2, "OUT", true, none⟩]) g s2
          = some ⟨g, s2, "OUT", true, none⟩ := by
        unfold lookupStatusRow at hl ⊢
        rw [List.find?_append, hl, Option.none_or]
        simp [List.find?_cons, statusKey]
      have h0 : statusRowsFor t g s2 = [] := by
        unfold statusRowsFor
        unfold lookupStatusRow at hl
        exact List.filter_eq_nil_iff.mpr (List.find?_eq_none.mp hl)
      have hrows : statusRowsFor (t ++ [⟨g, s2, "OUT", true, none⟩]) g s2
          = [⟨g, s2, "OUT", true, none⟩] := by
        unfold statusRowsFor
        rw [List.filter_append]
        unfold statusRowsFor at h0
        rw [h0]
        simp [statusKey]
      exact (initSubsAux_keeps rest _ _ hl').trans hrows
    · have hmem' : s ∈ rest := by
        cases List.mem_cons.mp hmem with
        | inl h => exact absurd h.symm hss
        | inr h => exact h
      cases hl2 : lookupStatusRow t g s2 with
      | some r2 =>
        exact ih t hmem' hl
      | none =>
        show statusRowsFor (initSubsAux (t ++ [⟨g, s2, "OUT", true, none⟩]) g rest).1 g s
          = [⟨g, s, "OUT", true, none⟩]
        have hkf : statusKey g s ⟨g, s2, "OUT", true, none⟩ = false := by
          simp [statusKey, hss]
        have hl' : lookupStatusRow (t ++ [⟨g, s2, "OUT", true, none⟩]) g s = none := by
          rw [lookupStatusRow_append_other t _ g s hkf]
          exact hl
        exact ih _ hmem' hl'

theorem initSubsAux_frame {g : Nat} : ∀ (subs : List String) (t : StatusTable)
    (g2 : Nat) (p : String), p ∉ subs →
    statusRowsFor (initSubsAux t g subs).1 g2 p = statusRowsFor t g2 p := by
  intro subs
  induction subs with
  | nil => intro t g2 p _; rfl
  | cons s2 rest ih =>
    intro t g2 p hp
    have hps : s2 ≠ p := fun h => hp (h ▸ List.mem_cons_self s2 rest)
    have hpr : p ∉ rest := fun h => hp (List.mem_cons_of_mem s2 h)
    simp only [initSubsAux]
    cases hl2 : lookupStatusRow t g s2 with
    | some r2 =>
      exact ih t g2 p hpr
    | none =>
      show statusRowsFor (initSubsAux (t ++ [⟨g, s2, "OUT", true, none⟩]) g rest).1 g2 p
        = statusRowsFor t g2 p
      have hkf : statusKey g2 p ⟨g, s2, "OUT", true, none⟩ = false := by
        simp [statusKey, hps]
      exact (ih _ g2 p hpr).trans (statusRowsFor_append_other t _ g2 p hkf)

theorem initSubsAux_view_out {g : Nat} {s : String} : ∀ (subs : List String)
    (t : StatusTable), s ∈ subs → lookupStatusRow t g s = none →
    (s, "OUT") ∈ (initSubsAux t g subs).2 := by
  intro subs
  induction subs with
  | nil => intro t hmem _; cases hmem
  | cons s2 rest ih =>
    intro t hmem hl
    simp only [initSubsAux]
    by_cases hss : s2 = s
    · subst hss
      rw [hl]
      exact List.mem_cons_self _ _
    · have hmem' : s ∈ rest := by
        cases List.mem_cons.mp hmem with
        | inl h => exact absurd h.symm hss
        | inr h => exact h
      cases hl2 : lookupStatusRow t g s2 with
      | some r2 =>
        exact List.mem_cons_of_mem _ (ih t hmem' hl)
      | none =>
        have hkf : statusKey g s ⟨g, s2, "OUT", true, none⟩ = false := by
          simp [statusKey, hss]
        have hl' : lookupStatusRow (t ++ [⟨g, s2, "OUT", true, none⟩]) g s = none := by
          rw [lookupStatusRow_append_other t _ g s hkf]
          exact hl
        exact List.mem_cons_of_mem _ (ih _ hmem' hl')

theorem initSubsAux_view_existing {g : Nat} {s : String} {r : StatusRow} :
    ∀ (subs : List String) (t : StatusTable), s ∈ subs →
    lookupStatusRow t g s = some r → (s, r.status) ∈ (initSubsAux t g subs).2 := by
  intro subs
  induction subs with
  | nil => intro t hmem _; cases hmem
  | cons s2 rest ih =>
    intro t hmem hl
    simp only [initSubsAux]
    by_cases hss : s2 = s
    · subst hss
      rw [hl]
      exact List.mem_cons_self _ _
    · have hmem' : s ∈ rest := by
        cases List.mem_cons.mp hmem with
        | inl h => exact absurd h.symm hss
        | inr h => exact h
      cases hl2 : lookupStatusRow t g s2 with
      | some r2 =>
        exact List.mem_cons_of_mem _ (ih t hmem' hl)
      | none =>
        have hkf : statusKey g s ⟨g, s2, "OUT", true, none⟩ = false := by
          simp [statusKey, hss]
        have hl' : lookupStatusRow (t ++ [⟨g, s2, "OUT", true, none⟩]) g s = some r := by
          rw [lookupStatusRow_append_other t _ g s hkf]
          exact hl
        exact List.mem_cons_of_mem _ (ih _ hmem' hl')

/-- Claim C3 (amended): when a game's player statuses are read, primary
roster players with no existing row are reported as IN without any row
being persisted for them, while each substitute with no existing row has
an (OUT, is_substitute, null kicking order) row persisted and is reported
as OUT; substitutes with an existing row are reported with that status. -/
theorem getStatuses_defaults (t : StatusTable) (mainRoster subs : List String) (g : Nat) :
    (∀ g2 p, p ∉ subs →
        statusRowsFor (initSubsAux t g subs).1 g2 p = statusRowsFor t g2 p)
    ∧ (∀ s ∈ subs, lookupStatusRow t g s = none →
        statusRowsFor (initSubsAux t g subs).1 g s = [⟨g, s, "OUT", true, none⟩]
          ∧ (s, "OUT") ∈ (initSubsAux t g subs).2)
    ∧ (∀ s r, s ∈ subs → lookupStatusRow t g s = some r →
        (s, r.status) ∈ (initSubsAux t g subs).2)
    ∧ (∀ p, p ∈ mainRoster → lookupStatusRow t g p = none →
        (p, "IN") ∈ rosterStatusList t mainRoster g)
    ∧ (∀ p r, p ∈ mainRoster → lookupStatusRow t g p = some r →
        (p, r.status) ∈ rosterStatusList t mainRoster g) := by
  refine ⟨fun g2 p hp => initSubsAux_frame subs t g2 p hp,
          fun s hs hl => ⟨initSubsAux_creates subs t hs hl, initSubsAux_view_out subs t hs hl⟩,
          fun s r hs hl => initSubsAux_view_existing subs t hs hl,
          fun p hp hl => ?_, fun p r hp hl => ?_⟩
  · unfold rosterStatusList
    refine List.mem_map.mpr ⟨p, hp, ?_⟩
    rw [hl]
  · unfold rosterStatusList
    refine List.mem_map.mpr ⟨p, hp, ?_⟩
    rw [hl]

/-- Counterexample to claim C3 as stated, at the concrete input of an empty
status table, game 1, main roster [Alice] and substitutes [Sam]: reading
the statuses persists no row at all for the rowless primary-roster player
Alice (the claim demands a persisted IN row with the next kicking order),
and does persist an OUT row for the rowless substitute Sam (the claim
demands that none be persisted). -/
theorem getStatuses_defaults_counterexample :
    statusRowsFor (initSubsAux ([] : StatusTable) 1 ["Sam"]).1 1 "Alice" = []
    ∧ statusRowsFor (initSubsAux ([] : StatusTable) 1 ["Sam"]).1 1 "Sam"
        = [⟨1, "Sam", "OUT", true, none⟩]
    ∧ rosterStatusList ([] : StatusTable) ["Alice"] 1 = [("Alice", "IN")] := by
  decide

/-- Witness for the amended claim C3 at a concrete input. -/
theorem getStatuses_defaults_witness :
    statusRowsFor (initSubsAux [⟨1, "Bo", "IN", false, some 1⟩] 1 ["Sam"]).1 1 "Bo"
      = statusRowsFor [⟨1, "Bo", "IN", false, some 1⟩] 1 "Bo"
    ∧ statusRowsFor (initSubsAux [⟨1, "Bo", "IN", false, some 1⟩] 1 ["Sam"]).1 1 "Sam"
      = [⟨1, "Sam", "OUT", true, none⟩] := by
  have h := getStatuses_defaults [⟨1, "Bo", "IN", false, some 1⟩] ["Al"] ["Sam"] 1
  exact ⟨h.1 1 "Bo" (by decide), (h.2.1 "Sam" (by decide) (by decide)).1⟩

/-- Python str.strip() as used on substitute names: drop leading and
trailing whitespace characters. -/
def pyStrip (s : String) : String :=
  ⟨((s.data.dropWhile Char.isWhitespace).reverse.dropWhile Char.isWhitespace).reverse⟩

/-- Outcome of an add-player form submission. -/
inductive AddResult where
  | ok (pool : List (String × Bool))
  | duplicateName
  | noAction
deriving DecidableEq, Repr

/-- The add_player_form handler (app.py lines 1166-1179): an empty name
means the form body does not run; a name already in main_roster raises
IntegrityError on the UNIQUE constraint and is reported as a duplicate;
otherwise the name is inserted exactly as typed, with no trimming. -/
def addPlayerMain (pool : List (String × Bool)) (name : String) (isF : Bool) :
    AddResult :=
  if name = "" then .noAction
  else if (pool.map Prod.fst).contains name then .duplicateName
  else .ok (pool ++ [(name, isF)])

/-- The add_substitute_form handler (app.py lines 1220-1234): an empty name
means the form body does not run; a whitespace-only name fails the
strip() guard and nothing happens; otherwise the stripped name is
inserted, with IntegrityError reported as a duplicate. -/
def addPlayerSub (pool : List (String × Bool)) (name : String) (isF : Bool) :
    AddResult :=
  if name = "" then .noAction
  else if pyStrip name = "" then .noAction
  else if (pool.map Prod.fst).contains (pyStrip name) then .duplicateName
  else .ok (pool ++ [(pyStrip name, isF)])

/-- Counterexample to claim C8 as stated, at the concrete input of one
whitespace-only name: the main-roster form accepts the name " ", which is
empty after trimming, and inserts it untrimmed, so the main pool does not
require names to be non-empty after trimming whitespace. -/
theorem addPlayer_counterexample :
    addPlayerMain [] " " false = .ok [(" ", false)] ∧ pyStrip " " = "" := by
  decide

/-- Claim C8 (amended): for either pool, addPlayer fails with DuplicateName
when the name already exists in that pool, leaving the pool unchanged;
after a successful add the pool contains the player exactly once.  The
substitute pool requires the name to be non-empty after trimming
whitespace and stores the trimmed name; the main pool only requires a
non-empty string and stores the name untrimmed, so whitespace-only names
are accepted there. -/
theorem addPlayer_spec (pool : List (String × Bool)) (name : String) (isF : Bool) :
    (name ≠ "" → name ∈ pool.map Prod.fst → addPlayerMain pool name isF = .duplicateName)
    ∧ (name ≠ "" → name ∉ pool.map Prod.fst →
        addPlayerMain pool name isF = .ok (pool ++ [(name, isF)])
        ∧ ((pool ++ [(name, isF)]).map Prod.fst).count name = 1)
    ∧ (name ≠ "" → pyStrip name ≠ "" → pyStrip name ∈ pool.map Prod.fst →
        addPlayerSub pool name isF = .duplicateName)
    ∧ (name ≠ "" → pyStrip name ≠ "" → pyStrip name ∉ pool.map Prod.fst →
        addPlayerSub pool name isF = .ok (pool ++ [(pyStrip name, isF)])
        ∧ ((pool ++ [(pyStrip name, isF)]).map Prod.fst).count (pyStrip name) = 1)
    ∧ (pyStrip name = "" → addPlayerSub pool name isF = .noAction) := by
  refine ⟨?_, ?_, ?_, ?_, ?_⟩
  · intro h1 h2
    unfold addPlayerMain
    rw [if_neg h1, if_pos (by simpa using h2)]
  · intro h1 h2
    constructor
    · unfold addPlayerMain
      rw [if_neg h1, if_neg (by simpa using h2)]
    · rw [List.map_append, List.count_append]
      rw [List.count_eq_zero.mpr h2]
      simp
  · intro h1 h2 h3
    unfold addPlayerSub
    rw [if_neg h1, if_neg h2, if_pos (by simpa using h3)]
  · intro h1 h2 h3
    constructor
    · unfold addPlayerSub
      rw [if_neg h1, if_neg h2, if_neg (by simpa using h3)]
    · rw [List.map_append, List.count_append]
      rw [List.count_eq_zero.mpr h3]
      simp
  · intro h1
    unfold addPlayerSub
    by_cases h0 : name = ""
    · rw [if_pos h0]
    · rw [if_neg h0, if_pos h1]

/-- Witness for the amended claim C8 at concrete inputs: adding Al again is
a duplicate, adding Bo succeeds with one occurrence, and a padded
substitute name is stored trimmed. -/
theorem addPlayer_spec_witness :
    addPlayerMain [("Al", false)] "Al" true = .duplicateName
    ∧ addPlayerMain [("Al", false)] "Bo" true = .ok [("Al", false), ("Bo", true)]
    ∧ addPlayerSub [] " Sam " true = .ok [("Sam", true)] := by
  have h1 := addPlayer_spec [("Al", false)] "Al" true
  have h2 := addPlayer_spec [("Al", false)] "Bo" true
  have h3 := addPlayer_spec ([] : List (String × Bool)) " Sam " true
  refine ⟨h1.1 (by decide) (by decide), (h2.2.1 (by decide) (by decide)).1, ?_⟩
  exact ((h3.2.2.2.1 (by decide) (by decide) (by decide)).1).trans (by decide)

/-- get_next_thursday (app.py lines 414-420): days until Thursday is
(3 - weekday) % 7 with Python semantics (weekday 0 is Monday, 3 is
Thursday, and % on a positive modulus is non-negative); a result of 0,
meaning today is Thursday, becomes a full week. -/
def daysUntilThursday (w : Nat) : Nat :=
  let d := (((3 : Int) - (w : Int)) % 7).toNat
  if d = 0 then 7 else d

/-- Row of table games, with the date abstracted to a day number. -/
structure Game where
  id : Nat
  game_date : Nat
  team_name : String
  opponent_name : String
deriving DecidableEq, Repr

/-- AUTOINCREMENT surrogate id: larger than every id already present. -/
def nextGameId (games : List Game) : Nat :=
  (games.foldl (fun m gm => max m gm.id) 0) + 1

/-- The get-or-create of the current game (app.py lines 549-568): look the
game up by exact date match on next Thursday; if absent, insert one with
the default team name and an empty opponent. -/
def getOrCreateCurrent (games : List Game) (today w : Nat) : Nat × List Game :=
  let d := today + daysUntilThursday w
  match games.find? (fun gm => gm.game_date == d) with
  | some gm => (gm.id, games)
  | none =>
      let newId := nextGameId games
      (newId, games ++ [⟨newId, d, "Unsolicited Kick Pics", ""⟩])

/-- Claim C5: the next Thursday is strictly in the future (a full week when
today is Thursday, so today's date is never used), lands on a Thursday,
and the current game is looked up by that exact date and created with the
default team name and empty opponent only if none exists; hence two calls
on the same calendar day return the same game id. -/
theorem getOrCreateCurrent_spec (games : List Game) (today w : Nat) (hw : w < 7) :
    (0 < daysUntilThursday w ∧ daysUntilThursday w ≤ 7
      ∧ (w + daysUntilThursday w) % 7 = 3 ∧ (w = 3 → daysUntilThursday w = 7))
    ∧ ((getOrCreateCurrent (getOrCreateCurrent games today w).2 today w).1
        = (getOrCreateCurrent games today w).1
      ∧ (getOrCreateCurrent (getOrCreateCurrent games today w).2 today w).2
        = (getOrCreateCurrent games today w).2)
    ∧ (∀ gm, games.find? (fun x => x.game_date == today + daysUntilThursday w) = some gm →
        getOrCreateCurrent games today w = (gm.id, games))
    ∧ (games.find? (fun x => x.game_date == today + daysUntilThursday w) = none →
        getOrCreateCurrent games today w
          = (nextGameId games, games ++ [⟨nextGameId games,
              today + daysUntilThursday w, "Unsolicited Kick Pics", ""⟩])) := by
  have harith : 0 < daysUntilThursday w ∧ daysUntilThursday w ≤ 7
      ∧ (w + daysUntilThursday w) % 7 = 3 ∧ (w = 3 → daysUntilThursday w = 7) := by
    interval_cases w <;> decide
  refine ⟨harith, ?_, ?_, ?_⟩
  · simp only [getOrCreateCurrent]
    cases hfind : games.find? (fun gm => gm.game_date == today + daysUntilThursday w) with
    | some gm =>
      rw [hfind]
      exact ⟨rfl, rfl⟩
    | none =>
      have hfind2 : (games ++ [(⟨nextGameId games, today + daysUntilThursday w,
          "Unsolicited Kick Pics", ""⟩ : Game)]).find?
            (fun gm => gm.game_date == today + daysUntilThursday w)
          = some ⟨nextGameId games, today + daysUntilThursday w,
              "Unsolicited Kick Pics", ""⟩ := by
        rw [List.find?_append, hfind, Option.none_or]
        rw [List.find?_cons_of_pos _ (by simp)]
      rw [hfind2]
      exact ⟨rfl, rfl⟩
  · intro gm hfind
    simp only [getOrCreateCurrent]
    rw [hfind]
  · intro hfind
    simp only [getOrCreateCurrent]
    rw [hfind]

/-- Witness for claim C5 at a concrete input: on a Thursday (weekday 3)
the offset is a full week, and a second call on the same day returns the
id of the game the first call created. -/
theorem getOrCreateCurrent_spec_witness :
    daysUntilThursday 3 = 7
    ∧ (getOrCreateCurrent (getOrCreateCurrent [] 100 3).2 100 3).1
        = (getOrCreateCurrent [] 100 3).1 := by
  have h := getOrCreateCurrent_spec [] 100 3 (by decide)
  exact ⟨h.1.2.2.2 rfl, h.2.1.1⟩

/-- LEFT JOIN of a roster pool on player_name with the UNIQUE name
constraint: the gender flag of the first (only) row with that name. -/
def lookupFlag : List (String × Bool) → String → Option Bool
  | [], _ => none
  | (q, b) :: rest, p => if q == p then some b else lookupFlag rest p

theorem lookupFlag_mem : ∀ (l : List (String × Bool)) (p : String) (b : Bool),
    lookupFlag l p = some b → (p, b) ∈ l := by
  intro l
  induction l with
  | nil => intro p b h; cases h
  | cons qc rest ih =>
    intro p b h
    obtain ⟨q, c⟩ := qc
    simp only [lookupFlag] at h
    by_cases hq : (q == p) = true
    · rw [if_pos hq] at h
      have hqp : q = p := by simpa using hq
      have hbc : c = b := by injection h
      subst hqp
      subst hbc
      exact List.mem_cons_self _ _
    · rw [if_neg hq] at h
      exact List.mem_cons_of_mem _ (ih p b h)

/-- The gender disjunct of check_female_count (app.py line 844):
COALESCE(mr.is_female, 0) = 1 OR COALESCE(s.is_female, 0) = 1. -/
def femaleOr (mains subs : List (String × Bool)) (p : String) : Bool :=
  ((lookupFlag mains p).getD false) || ((lookupFlag subs p).getD false)

/-- check_female_count (app.py lines 837-846): COUNT(DISTINCT player_name)
over the lineup rows of the (game, inning) whose position is neither Out
nor blank and whose joined gender flag is set. -/
def check_female_count (lu : Lineup) (mains subs : List (String × Bool))
    (g i : Nat) : Nat :=
  ((lu.filter (fun r => r.game_id == g && r.inning == i
      && !(r.position == "Out") && !(r.position == "")
      && femaleOr mains subs r.player_name)).map (fun r => r.player_name)).dedup.length

/-- The warning of the inning warnings loop (app.py lines 900-904),
reported exactly when the female count is below four. -/
def femaleWarning (lu : Lineup) (mains subs : List (String × Bool)) (g i : Nat) :
    Prop :=
  check_female_count lu mains subs g i < 4

/-- The gender flag of a player read from whichever pool the player belongs
to, as the specification words it: the main roster if present there, else
the substitute pool. -/
def genderFlag (mains subs : List (String × Bool)) (p : String) : Option Bool :=
  match lookupFlag mains p with
  | some b => some b
  | none => lookupFlag subs p

/-- The female count as the specification words it: distinct players
holding a non-blank, non-Out position whose gender flag is true. -/
def femaleCountSpec (lu : Lineup) (mains subs : List (String × Bool))
    (g i : Nat) : Nat :=
  ((lu.filter (fun r => r.game_id == g && r.inning == i
      && !(r.position == "Out") && !(r.position == "")
      && (genderFlag mains subs r.player_name == some true))).map
    (fun r => r.player_name)).dedup.length

theorem femaleOr_eq_genderFlag (mains subs : List (String × Bool)) (p : String)
    (hd : ∀ q ∈ mains, lookupFlag subs q.1 = none) :
    femaleOr mains subs p = (genderFlag mains subs p == some true) := by
  unfold femaleOr genderFlag
  cases hm : lookupFlag mains p with
  | some b =>
    have hnone : lookupFlag subs p = none := hd (p, b) (lookupFlag_mem mains p b hm)
    rw [hnone]
    cases b <;> simp
  | none =>
    cases hs : lookupFlag subs p with
    | some c => cases c <;> simp
    | none => simp

/-- Claim C7: for every game and inning the female-count check equals the
number of distinct players assigned to a non-blank, non-Out position in
that inning whose gender flag, looked up from whichever pool the player
belongs to, is true, and a warning is reported exactly when that count is
below four.  The two pools are disjoint. -/
theorem check_female_count_spec (lu : Lineup) (mains subs : List (String × Bool))
    (g i : Nat) (hd : ∀ q ∈ mains, lookupFlag subs q.1 = none) :
    check_female_count lu mains subs g i = femaleCountSpec lu mains subs g i
    ∧ (femaleWarning lu mains subs g i ↔ check_female_count lu mains subs g i < 4) := by
  refine ⟨?_, Iff.rfl⟩
  unfold check_female_count femaleCountSpec
  have hf : lu.filter (fun r => r.game_id == g && r.inning == i
      && !(r.position == "Out") && !(r.position == "")
      && femaleOr mains subs r.player_name)
      = lu.filter (fun r => r.game_id == g && r.inning == i
      && !(r.position == "Out") && !(r.position == "")
      && (genderFlag mains subs r.player_name == some true)) := by
    refine List.filter_congr (fun r _ => ?_)
    rw [femaleOr_eq_genderFlag mains subs r.player_name hd]
  rw [hf]

/-- Witness for claim C7 at a concrete input: Alice (female) at Pitcher and
Bob (male) at Catcher in inning 1 give a female count of 1, matching the
specification count, and 1 is below the warning threshold. -/
theorem check_female_count_spec_witness :
    check_female_count [⟨1, 1, "Pitcher", "Alice"⟩, ⟨1, 1, "Catcher", "Bob"⟩]
        [("Alice", true), ("Bob", false)] [("Sam", true)] 1 1
      = femaleCountSpec [⟨1, 1, "Pitcher", "Alice"⟩, ⟨1, 1, "Catcher", "Bob"⟩]
        [("Alice", true), ("Bob", false)] [("Sam", true)] 1 1
    ∧ check_female_count [⟨1, 1, "Pitcher", "Alice"⟩, ⟨1, 1, "Catcher", "Bob"⟩]
        [("Alice", true), ("Bob", false)] [("Sam", true)] 1 1 = 1 := by
  have h := check_female_count_spec
    [⟨1, 1, "Pitcher", "Alice"⟩, ⟨1, 1, "Catcher", "Bob"⟩]
    [("Alice", true), ("Bob", false)] [("Sam", true)] 1 1 (by decide)
  exact ⟨h.1, by decide⟩

/-- Sort key of the availability query (app.py lines 776-779): ascending
COALESCE(kicking_order, 999), ties broken by player_name. -/
def orderKeyLe (a b : String × Nat) : Prop :=
  a.2 < b.2 ∨ (a.2 = b.2 ∧ a.1 ≤ b.1)

instance : DecidableRel orderKeyLe := fun a b => by
  unfold orderKeyLe
  infer_instance

/-- SELECT player_name, COALESCE(kicking_order, 999) FROM game_player_status
WHERE game_id = ? AND status = IN ORDER BY order_val, player_name (app.py
lines 776-780). -/
def inPlayersSorted (t : StatusTable) (g : Nat) : List (String × Nat) :=
  List.insertionSort orderKeyLe
    ((t.filter (fun r => r.game_id == g && r.status == "IN")).map
      (fun r => (r.player_name, r.kicking_order.getD 999)))

/-- UPDATE game_player_status SET kicking_order = k WHERE game_id AND
player_name (app.py lines 788-791). -/
def updateOrder (t : StatusTable) (g : Nat) (p : String) (k : Nat) : StatusTable :=
  t.map (fun r => if r.game_id == g && r.player_name == p then
    { r with kicking_order := some k } else r)

/-- The assignment loop: for idx, (player, _) in enumerate(data, 1),
update that player's kicking order to idx. -/
def assignOrders (g : Nat) : StatusTable → List String → Nat → StatusTable
  | t, [], _ => t
  | t, p :: rest, k => assignOrders g (updateOrder t g p k) rest (k + 1)

/-- The kicking-order initialization (app.py lines 782-798): when some
fetched order value equals the COALESCE sentinel 999, reassign 1..n to
all IN players of the game in the fetched sort order. -/
def initKickingOrder (t : StatusTable) (g : Nat) : StatusTable :=
  let data := inPlayersSorted t g
  if data.any (fun pr => pr.2 == 999) then
    assignOrders g t (data.map Prod.fst) 1
  else t

theorem statusRowsFor_updateOrder_self (t : StatusTable) (g : Nat) (p : String)
    (k : Nat) :
    statusRowsFor (updateOrder t g p k) g p
      = (statusRowsFor t g p).map (fun r => { r with kicking_order := some k }) := by
  unfold statusRowsFor updateOrder
  rw [List.filter_map]
  have hpred : ∀ r ∈ t, (statusKey g p ∘ (fun r : StatusRow =>
      if r.game_id == g && r.player_name == p then { r with kicking_order := some k }
      else r)) r = statusKey g p r := by
    intro r _
    by_cases hc : (r.game_id == g && r.player_name == p) = true
    · simp only [Function.comp, if_pos hc]
      cases r
      simp [statusKey]
    · simp only [Function.comp, if_neg hc]
  rw [List.filter_congr hpred]
  refine List.map_congr_left (fun r hr => ?_)
  have hc := (List.mem_filter.mp hr).2
  rw [if_pos (show (r.game_id == g && r.player_name == p) = true from hc)]

theorem statusRowsFor_updateOrder_other (t : StatusTable) (g : Nat) (p : String)
    (k : Nat) (g2 : Nat) (q : String) (h : ¬(g2 = g ∧ q = p)) :
    statusRowsFor (updateOrder t g p k) g2 q = statusRowsFor t g2 q := by
  unfold statusRowsFor updateOrder
  rw [List.filter_map]
  have hpred : ∀ r ∈ t, (statusKey g2 q ∘ (fun r : StatusRow =>
      if r.game_id == g && r.player_name == p then { r with kicking_order := some k }
      else r)) r = statusKey g2 q r := by
    intro r _
    by_cases hc : (r.game_id == g && r.player_name == p) = true
    · simp only [Function.comp, if_pos hc]
      cases r
      simp [statusKey]
    · simp only [Function.comp, if_neg hc]
  rw [List.filter_congr hpred]
  refine ((List.map_congr_left fun r hr => ?_).trans (List.map_id _))
  have hc := (List.mem_filter.mp hr).2
  simp only [statusKey, Bool.and_eq_true, beq_iff_eq] at hc
  rw [if_neg, id]
  intro hcond
  simp only [Bool.and_eq_true, beq_iff_eq] at hcond
  exact h ⟨hc.1.symm.trans hcond.1, hc.2.symm.trans hcond.2⟩

theorem assignOrders_frame (g : Nat) : ∀ (names : List String) (t : StatusTable)
    (k : Nat) (g2 : Nat) (q : String), q ∉ names →
    statusRowsFor (assignOrders g t names k) g2 q = statusRowsFor t g2 q := by
  intro names
  induction names with
  | nil => intro t k g2 q _; rfl
  | cons p rest ih =>
    intro t k g2 q hq
    have hqp : q ≠ p := fun h => hq (h ▸ List.mem_cons_self p rest)
    have hqr : q ∉ rest := fun h => hq (List.mem_cons_of_mem p h)
    show statusRowsFor (assignOrders g (updateOrder t g p k) rest (k + 1)) g2 q = _
    rw [ih (updateOrder t g p k) (k + 1) g2 q hqr]
    exact statusRowsFor_updateOrder_other t g p k g2 q (fun hcon => hqp hcon.2)

theorem assignOrders_get (g : Nat) : ∀ (names : List String) (t : StatusTable)
    (k : Nat), names.Nodup → ∀ i (h : i < names.length),
    statusRowsFor (assignOrders g t names k) g (names.get ⟨i, h⟩)
      = (statusRowsFor t g (names.get ⟨i, h⟩)).map
          (fun r => { r with kicking_order := some (k + i) }) := by
  intro names
  induction names with
  | nil => intro t k _ i h; exact absurd h (Nat.not_lt_zero i)
  | cons p rest ih =>
    intro t k hnd i h
    have hnd2 := List.nodup_cons.mp hnd
    cases i with
    | zero =>
      show statusRowsFor (assignOrders g (updateOrder t g p k) rest (k + 1)) g p
        = (statusRowsFor t g p).map (fun r => { r with kicking_order := some (k + 0) })
      rw [assignOrders_frame g rest (updateOrder t g p k) (k + 1) g p hnd2.1]
      rw [statusRowsFor_updateOrder_self t g p k]
      rfl
    | succ j =>
      have hj : j < rest.length := Nat.lt_of_succ_lt_succ h
      show statusRowsFor (assignOrders g (updateOrder t g p k) rest (k + 1)) g
          (rest.get ⟨j, hj⟩) = _
      rw [ih (updateOrder t g p k) (k + 1) hnd2.2 j hj]
      have hne : rest.get ⟨j, hj⟩ ≠ p := by
        intro hcon
        exact hnd2.1 (hcon ▸ List.get_mem rest j hj)
      rw [statusRowsFor_updateOrder_other t g p k g _ (fun hcon => hne hcon.2)]
      have harith : k + 1 + j = k + (j + 1) := by omega
      rw [harith]
      rfl

theorem assignOrders_proj (g : Nat) : ∀ (names : List String) (t : StatusTable)
    (k : Nat), (assignOrders g t names k).map (fun r => (r.game_id, r.player_name, r.status))
      = t.map (fun r => (r.game_id, r.player_name, r.status)) := by
  intro names
  induction names with
  | nil => intro t k; rfl
  | cons p rest ih =>
    intro t k
    show (assignOrders g (updateOrder t g p k) rest (k + 1)).map _ = _
    rw [ih (updateOrder t g p k) (k + 1)]
    unfold updateOrder
    rw [List.map_map]
    refine List.map_congr_left (fun r _ => ?_)
    by_cases hc : (r.game_id == g && r.player_name == p) = true
    · simp only [Function.comp, if_pos hc]
    · simp only [Function.comp, if_neg hc]

/-- Well-formedness from the UNIQUE(game_id, player_name) constraint of
game_player_status: no two rows share a key. -/
def wfStatusKeys (t : StatusTable) : Prop :=
  (t.map (fun r => (r.game_id, r.player_name))).Nodup

instance (t : StatusTable) : Decidable (wfStatusKeys t) := by
  unfold wfStatusKeys
  infer_instance

theorem inPlayersSorted_names_nodup (t : StatusTable) (g : Nat)
    (hwf : wfStatusKeys t) : ((inPlayersSorted t g).map Prod.fst).Nodup := by
  unfold inPlayersSorted
  have hperm := (List.perm_insertionSort orderKeyLe
    ((t.filter (fun r => r.game_id == g && r.status == "IN")).map
      (fun r => (r.player_name, r.kicking_order.getD 999)))).map Prod.fst
  refine hperm.nodup_iff.mpr ?_
  rw [List.map_map]
  have hsub : ((t.filter (fun r => r.game_id == g && r.status == "IN")).map
      (fun r => (r.game_id, r.player_name))).Nodup :=
    List.Nodup.sublist ((List.filter_sublist t).map _) hwf
  have hmap : (t.filter (fun r => r.game_id == g && r.status == "IN")).map
      (fun r => (r.game_id, r.player_name))
      = ((t.filter (fun r => r.game_id == g && r.status == "IN")).map
          (fun r => r.player_name)).map (fun p => (g, p)) := by
    rw [List.map_map]
    refine List.map_congr_left (fun r hr => ?_)
    have hp := (List.mem_filter.mp hr).2
    simp only [Bool.and_eq_true, beq_iff_eq] at hp
    simp [Function.comp, hp.1]
  rw [hmap] at hsub
  exact List.Nodup.of_map _ hsub

theorem initKickingOrder_triggered (t : StatusTable) (g : Nat)
    (htrig : ∃ r ∈ t, r.game_id = g ∧ r.status = "IN" ∧ r.kicking_order = none) :
    initKickingOrder t g = assignOrders g t ((inPlayersSorted t g).map Prod.fst) 1 := by
  have hcond : ((inPlayersSorted t g).any fun pr => pr.2 == 999) = true := by
    obtain ⟨r, hmem, hg, hin, hord⟩ := htrig
    have hmemf : r ∈ t.filter (fun r => r.game_id == g && r.status == "IN") :=
      List.mem_filter.mpr ⟨hmem, by simp [hg, hin]⟩
    have hpair : (r.player_name, (999 : Nat))
        ∈ (t.filter (fun r => r.game_id == g && r.status == "IN")).map
            (fun r => (r.player_name, r.kicking_order.getD 999)) := by
      refine List.mem_map.mpr ⟨r, hmemf, ?_⟩
      rw [hord]
      rfl
    have hpair2 : (r.player_name, (999 : Nat)) ∈ inPlayersSorted t g :=
      ((List.perm_insertionSort orderKeyLe _).mem_iff).mpr hpair
    rw [List.any_eq_true]
    exact ⟨_, hpair2, by simp⟩
  unfold initKickingOrder
  rw [if_pos hcond]

/-- Claim C10 (amended): when the lineup view loads a game in which at
least one IN player has a null kicking order, the kicking orders of all IN
players of that game are reassigned to 1..n following the fetched sort,
which orders by the kicking order with null replaced by the sentinel 999
(so a null sorts after real orders below 999 but not after larger ones),
ties broken alphabetically by name; statuses and keys are untouched, so
afterwards the IN players hold exactly the orders 1..n in that sort
order, and existing non-null orders may be renumbered. -/
theorem initKickingOrder_spec (t : StatusTable) (g : Nat) (hwf : wfStatusKeys t)
    (htrig : ∃ r ∈ t, r.game_id = g ∧ r.status = "IN" ∧ r.kicking_order = none) :
    (∀ i (h : i < (inPlayersSorted t g).length),
      statusRowsFor (initKickingOrder t g) g ((inPlayersSorted t g).get ⟨i, h⟩).1
        = (statusRowsFor t g ((inPlayersSorted t g).get ⟨i, h⟩).1).map
            (fun r => { r with kicking_order := some (i + 1) }))
    ∧ (initKickingOrder t g).map (fun r => (r.game_id, r.player_name, r.status))
        = t.map (fun r => (r.game_id, r.player_name, r.status)) := by
  rw [initKickingOrder_triggered t g htrig]
  constructor
  · intro i h
    have hlen : i < ((inPlayersSorted t g).map Prod.fst).length := by
      rw [List.length_map]
      exact h
    have hget : ((inPlayersSorted t g).map Prod.fst).get ⟨i, hlen⟩
        = ((inPlayersSorted t g).get ⟨i, h⟩).1 := by
      simp [List.getElem_map]
    have hmain := assignOrders_get g ((inPlayersSorted t g).map Prod.fst) t 1
      (inPlayersSorted_names_nodup t g hwf) i hlen
    rw [hget] at hmain
    rw [hmain, Nat.add_comm 1 i]
  · exact assignOrders_proj g _ t 1

/-- Counterexample to claim C10 as stated, at the concrete input of IN
players Al (null order) and Bo (order 1000) of game 1: the claim says the
backfill sorts with null treated as last, which would give Bo order 1 and
Al order 2, but the code coalesces null to 999, sorts Al (999) before Bo
(1000), and gives Al order 1. -/
theorem initKickingOrder_counterexample :
    statusRowsFor (initKickingOrder
        [⟨1, "Al", "IN", false, none⟩, ⟨1, "Bo", "IN", false, some 1000⟩] 1) 1 "Al"
      = [⟨1, "Al", "IN", false, some 1⟩]
    ∧ statusRowsFor (initKickingOrder
        [⟨1, "Al", "IN", false, none⟩, ⟨1, "Bo", "IN", false, some 1000⟩] 1) 1 "Bo"
      = [⟨1, "Bo", "IN", false, some 2⟩]
    ∧ ¬ (statusRowsFor (initKickingOrder
        [⟨1, "Al", "IN", false, none⟩, ⟨1, "Bo", "IN", false, some 1000⟩] 1) 1 "Al"
      = [⟨1, "Al", "IN", false, some 2⟩]) := by
  decide

/-- Witness for the amended claim C10 at a concrete input: Al (null order)
and Bo (order 2) are IN; the backfill sorts Bo (2) before Al (999) and
assigns Bo order 1, renumbering the existing order 2. -/
theorem initKickingOrder_spec_witness :
    statusRowsFor (initKickingOrder
        [⟨1, "Al", "IN", false, none⟩, ⟨1, "Bo", "IN", false, some 2⟩] 1) 1
        ((inPlayersSorted
          [⟨1, "Al", "IN", false, none⟩, ⟨1, "Bo", "IN", false, some 2⟩] 1).get
            ⟨0, by decide⟩).1
      = [⟨1, "Bo", "IN", false, some 1⟩] := by
  have h := initKickingOrder_spec
    [⟨1, "Al", "IN", false, none⟩, ⟨1, "Bo", "IN", false, some 2⟩] 1
    (by decide) (by decide)
  exact (h.1 0 (by decide)).trans (by decide)

/-- Modelled from the spec: the publish snapshot state.  src/app.py has no
publish, unpublish or getPublished code (no published tables and no
publish flag on games), so the Publish Snapshot component of the
specification is modelled here from its words: the live lineup and
availability tables, a separately stored published copy of the lineup
rows, a published kicking-order relation, and a per-game publish flag. -/
structure PubDB where
  lineup : Lineup
  statusTable : StatusTable
  pubLineup : Lineup
  pubOrder : List (Nat × String × Nat)
  publishedGames : List Nat
deriving Repr

/-- Modelled from the spec: the current IN players of a game with their
kicking orders, the relation copied on publish. -/
def liveOrder (db : PubDB) (g : Nat) : List (Nat × String × Nat) :=
  (db.statusTable.filter (fun r => r.game_id == g && r.status == "IN")).filterMap
    (fun r => r.kicking_order.map (fun k => (g, r.player_name, k)))

/-- Modelled from the spec: publish(gameId) deletes any existing published
rows for the game, copies the entire current lineup grid verbatim into
the published relation, copies the current IN players' kicking order, and
sets the publish flag. -/
def publish (db : PubDB) (g : Nat) : PubDB :=
  { db with
    pubLineup := db.pubLineup.filter (fun r => !(r.game_id == g))
      ++ db.lineup.filter (fun r => r.game_id == g),
    pubOrder := db.pubOrder.filter (fun e => !(e.1 == g)) ++ liveOrder db g,
    publishedGames := g :: db.publishedGames.filter (fun x => !(x == g)) }

/-- Modelled from the spec: unpublish(gameId) deletes the published rows
and clears the publish flag. -/
def unpublish (db : PubDB) (g : Nat) : PubDB :=
  { db with
    pubLineup := db.pubLineup.filter (fun r => !(r.game_id == g)),
    pubOrder := db.pubOrder.filter (fun e => !(e.1 == g)),
    publishedGames := db.publishedGames.filter (fun x => !(x == g)) }

/-- Modelled from the spec: getPublished(gameId) returns published false
with empty collections when the flag is clear, else the frozen rows of
the published relations. -/
def getPublished (db : PubDB) (g : Nat) :
    Bool × Lineup × List (Nat × String × Nat) :=
  if db.publishedGames.contains g then
    (true, db.pubLineup.filter (fun r => r.game_id == g),
      db.pubOrder.filter (fun e => e.1 == g))
  else (false, [], [])

/-- Modelled from the spec: an edit to the live tables - a lineup cell
update, the bulk copy, the reset, or an availability toggle; none of them
touches the published relations. -/
inductive LiveEdit where
  | cell (g i : Nat) (p pos : String)
  | copyAll (g : Nat)
  | reset (g : Nat)
  | toggle (subs : List String) (g : Nat) (p : String)

/-- Modelled from the spec: apply a live edit to the working tables. -/
def applyLive (e : LiveEdit) (db : PubDB) : PubDB :=
  match e with
  | .cell g i p pos => { db with lineup := setCell db.lineup g i p pos }
  | .copyAll g => { db with lineup := copyInningOneToAll db.lineup g }
  | .reset g => { db with lineup := resetLineup db.lineup g }
  | .toggle subs g p => { db with statusTable := toggleStatus db.statusTable subs g p }

/-- Claim C4: publish copies the whole current lineup grid and the IN
players' kicking order into the published relations and sets the flag;
getPublished returns published false with empty collections immediately
after unpublish even when the live lineup is non-empty, and after publish
it reflects exactly the live lineup at the moment of publishing,
unaffected by any subsequent live edit until publish is called again. -/
theorem publish_snapshot_spec (db : PubDB) (g : Nat) (e : LiveEdit) :
    getPublished (unpublish db g) g = (false, [], [])
    ∧ getPublished (publish db g) g
        = (true, db.lineup.filter (fun r => r.game_id == g), liveOrder db g)
    ∧ getPublished (applyLive e (publish db g)) g = getPublished (publish db g) g := by
  refine ⟨?_, ?_, ?_⟩
  · unfold getPublished unpublish
    have hc : ((db.publishedGames.filter (fun x => !(x == g))).contains g) = false := by
      rw [Bool.eq_false_iff]
      intro hcon
      have hmem : g ∈ db.publishedGames.filter (fun x => !(x == g)) := by
        simp at hcon
      have := (List.mem_filter.mp hmem).2
      simp at this
    rw [hc]
    simp
  · unfold getPublished publish
    have hc : ((g :: db.publishedGames.filter (fun x => !(x == g))).contains g) = true := by
      simp
    rw [hc]
    simp only [if_true]
    have h1 : (db.pubLineup.filter (fun r => !(r.game_id == g))
        ++ db.lineup.filter (fun r => r.game_id == g)).filter (fun r => r.game_id == g)
        = db.lineup.filter (fun r => r.game_id == g) := by
      rw [List.filter_append]
      have ha : (db.pubLineup.filter (fun r => !(r.game_id == g))).filter
          (fun r => r.game_id == g) = [] := by
        rw [List.filter_eq_nil_iff]
        intro a ha
        have := (List.mem_filter.mp ha).2
        simp only [Bool.not_eq_true'] at this
        simp [this]
      have hb : (db.lineup.filter (fun r => r.game_id == g)).filter
          (fun r => r.game_id == g) = db.lineup.filter (fun r => r.game_id == g) := by
        refine List.filter_eq_self.mpr (fun a ha => ?_)
        exact (List.mem_filter.mp ha).2
      rw [ha, hb, List.nil_append]
    have h2 : (db.pubOrder.filter (fun e => !(e.1 == g)) ++ liveOrder db g).filter
        (fun e => e.1 == g) = liveOrder db g := by
      rw [List.filter_append]
      have ha : (db.pubOrder.filter (fun e => !(e.1 == g))).filter
          (fun e => e.1 == g) = [] := by
        rw [List.filter_eq_nil_iff]
        intro a ha
        have := (List.mem_filter.mp ha).2
        simp only [Bool.not_eq_true'] at this
        simp [this]
      have hb : (liveOrder db g).filter (fun e => e.1 == g) = liveOrder db g := by
        refine List.filter_eq_self.mpr (fun a ha => ?_)
        unfold liveOrder at ha
        obtain ⟨r, _, hr⟩ := List.mem_filterMap.mp ha
        obtain ⟨k, _, hk⟩ := Option.map_eq_some'.mp hr
        rw [← hk]
        simp
      rw [ha, hb, List.nil_append]
    rw [h1, h2]
  · cases e <;> rfl

end UKP
